import Mathlib

/-!
A model of the retry/queue engine in `src/index.ts` of
universal-api-retry-interceptor: the pending-request registry, the default
retry-eligibility predicate, the retry sweep, clearing, and configuration
updates.  Lifecycle callbacks and promise settlements are modelled as
emitted events; the transport (the saved original `fetch`) is a function
parameter returning either a response or a thrown error value.
-/

namespace RetryInterceptor

/-- A JavaScript error value as the engine inspects it: optional `name` and
`message` fields (an absent/undefined field is `none`). -/
structure ErrObj where
  name : Option String
  message : Option String
deriving DecidableEq, Repr

/-- A transport response as the engine observes it: the `ok` flag and the
numeric `status`. -/
structure Response where
  ok : Bool
  status : Nat
deriving DecidableEq, Repr

/-- Whether the character list `s` starts with the character list `pat`. -/
def charsStartWith : List Char → List Char → Bool
  | _, [] => true
  | [], _ :: _ => false
  | a :: as, p :: ps => a == p && charsStartWith as ps

/-- Whether `pat` occurs as a contiguous run somewhere in the list. -/
def charsHaveSub (pat : List Char) : List Char → Bool
  | [] => pat.isEmpty
  | a :: rest => charsStartWith (a :: rest) pat || charsHaveSub pat rest

/-- JavaScript `String.prototype.includes`: substring containment. -/
def hasSubstr (s pat : String) : Bool :=
  charsHaveSub pat.data s.data

/-- The `defaultRetryCondition` of `src/index.ts` (lines 44-58): retry when
there is no response and the error is a `TypeError` or mentions `fetch` in
its message; with a response, retry exactly on status `>= 500`, `408`,
`429` or `0`; otherwise do not retry. -/
def defaultRetryCondition (error : Option ErrObj) (response : Option Response) : Bool :=
  if response.isNone &&
      (match error with
       | some e =>
         (e.name == some "TypeError") ||
           (match e.message with
            | some m => hasSubstr m "fetch"
            | none => false)
       | none => false) then
    true
  else
    match response with
    | some r => decide (500 ≤ r.status) || r.status == 408 || r.status == 429 || r.status == 0
    | none => false

/-- The error value the XHR `onerror` path feeds to the retry condition
(`src/index.ts` line 194): a bare object whose `name` is `NetworkError`. -/
def networkErrorValue : ErrObj :=
  { name := some "NetworkError", message := none }

/-- The resolved configuration held in `this.config`; the `onRetry` and
`onMaxRetriesExceeded` callbacks are modelled as emitted events. -/
structure Config where
  delayTime : Int
  retryInterval : Int
  maxRetries : Nat
  retryCondition : Option ErrObj → Option Response → Bool
  enableLogging : Bool

/-- A `RetryConfig` value: every field optional, as both the constructor
argument and the `updateConfig` argument (`Partial<RetryConfig>`). -/
structure ConfigPatch where
  delayTime : Option Int := none
  retryInterval : Option Int := none
  maxRetries : Option Nat := none
  retryCondition : Option (Option ErrObj → Option Response → Bool) := none
  enableLogging : Option Bool := none

/-- The constructor's defaulting (`src/index.ts` lines 21-30): `??` with
1000, 5000, 3, the default predicate, and logging off. -/
def mkConfig (c : ConfigPatch) : Config where
  delayTime := c.delayTime.getD 1000
  retryInterval := c.retryInterval.getD 5000
  maxRetries := c.maxRetries.getD 3
  retryCondition := c.retryCondition.getD defaultRetryCondition
  enableLogging := c.enableLogging.getD false

/-- `updateConfig` (lines 504-507): spread-merge of the patch over the
current configuration. -/
def updateConfig (cfg : Config) (p : ConfigPatch) : Config where
  delayTime := p.delayTime.getD cfg.delayTime
  retryInterval := p.retryInterval.getD cfg.retryInterval
  maxRetries := p.maxRetries.getD cfg.maxRetries
  retryCondition := p.retryCondition.getD cfg.retryCondition
  enableLogging := p.enableLogging.getD cfg.enableLogging

/-- An entry of the `pendingRequests` map. The stored `resolve`/`reject`
continuations are represented by the settle events carrying the entry id;
`options` is an opaque token for the captured `RequestInit`. -/
structure PendingRequest where
  id : Nat
  url : String
  options : Nat
  retryCount : Nat
  timestamp : Int
deriving DecidableEq, Repr

/-- Observable actions of the engine. `resolveCalled` is an invocation of
an entry's stored `resolve` (which settles the caller's promise directly);
`rejectCalled` is an invocation of the stored `reject` wrapper;
`callerRejected` is the wrapper actually rejecting the caller's promise,
which it does only for non-`INTERCEPTOR_CLEARED` errors. -/
inductive Event where
  | onRetry (id : Nat) (attempt : Nat)
  | onMaxRetriesExceeded (id : Nat)
  | resolveCalled (id : Nat) (resp : Response)
  | rejectCalled (id : Nat) (err : ErrObj)
  | callerRejected (id : Nat) (err : ErrObj)
  | logged (msg : String)
deriving DecidableEq, Repr

/-- The `log` helper (lines 38-42): emits only when logging is enabled. -/
def logEvs (cfg : Config) (msg : String) : List Event :=
  if cfg.enableLogging then [Event.logged msg] else []

/-- The message of the error `clearPendingRequests` rejects with. -/
def clearedMessage : String := "INTERCEPTOR_CLEARED"

/-- `new Error("INTERCEPTOR_CLEARED")`. -/
def clearedError : ErrObj :=
  { name := some "Error", message := some clearedMessage }

/-- The error built at retry exhaustion (line 458). -/
def maxRetriesError (url : String) : ErrObj :=
  { name := some "Error", message := some ("Max retries exceeded for " ++ url) }

/-- Invoking an entry's stored `reject` wrapper (lines 376-383): the
wrapper itself runs, and it rejects the caller's promise only when the
error's message is not `INTERCEPTOR_CLEARED`. -/
def rejectEvents (id : Nat) (e : ErrObj) : List Event :=
  Event.rejectCalled id e ::
    (if e.message == some clearedMessage then [] else [Event.callerRejected id e])

/-- Outcome of one transport dispatch: `await fetch` either returns a
response or throws. -/
inductive DispatchResult where
  | ok (resp : Response)
  | threw (error : ErrObj)

/-- The in-place mutation at the start of an attempt (lines 430-431):
increment `retryCount` and refresh `timestamp`. -/
def bump (r : PendingRequest) (now : Int) : PendingRequest :=
  { r with retryCount := r.retryCount + 1, timestamp := now }

/-- The `onRetry` callback plus the log line preceding a dispatch
(lines 433-439). -/
def attemptEvents (cfg : Config) (r : PendingRequest) : List Event :=
  Event.onRetry r.id (r.retryCount + 1) ::
    logEvs cfg ("Retrying request " ++ toString r.id ++ " (attempt " ++
      toString (r.retryCount + 1) ++ "/" ++ toString cfg.maxRetries ++ ")")

/-- The log line after a successful retry (lines 449-451). -/
def succeededLog (cfg : Config) (r : PendingRequest) : List Event :=
  logEvs cfg ("Request " ++ toString r.id ++ " succeeded on retry " ++
    toString (r.retryCount + 1))

/-- The log line after retry exhaustion (lines 459-461 and 471-474). -/
def exhaustedLog (cfg : Config) (r : PendingRequest) : List Event :=
  logEvs cfg ("Request " ++ toString r.id ++ " failed after " ++
    toString (r.retryCount + 1) ++ " retries")

/-- The log line after a non-retryable thrown error (lines 478-481). -/
def nonRetryableLog (cfg : Config) (r : PendingRequest) : List Event :=
  logEvs cfg ("Request " ++ toString r.id ++ " failed with non-retryable error")

/-- The body of the `for` loop of `retryPendingRequests` (lines 423-483)
for one snapshot entry: skip it when not yet due, otherwise increment its
`retryCount`, refresh its `timestamp`, invoke `onRetry`, dispatch, and act
on the classified outcome.  Returns the entry as it remains in the registry
(`none` when deleted) together with the emitted events. -/
def sweepEntry (cfg : Config) (dispatch : String → Nat → DispatchResult) (now : Int)
    (r : PendingRequest) : Option PendingRequest × List Event :=
  if now - r.timestamp < cfg.delayTime then
    (some r, [])
  else
    match dispatch r.url r.options with
    | DispatchResult.ok resp =>
      if resp.ok || !(cfg.retryCondition none (some resp)) then
        (none, attemptEvents cfg r ++ Event.resolveCalled r.id resp :: succeededLog cfg r)
      else if cfg.maxRetries ≤ r.retryCount + 1 then
        (none, attemptEvents cfg r ++ Event.onMaxRetriesExceeded r.id ::
          (rejectEvents r.id (maxRetriesError r.url) ++ exhaustedLog cfg r))
      else
        (some (bump r now), attemptEvents cfg r)
    | DispatchResult.threw e =>
      if cfg.maxRetries ≤ r.retryCount + 1 then
        (none, attemptEvents cfg r ++ Event.onMaxRetriesExceeded r.id ::
          (rejectEvents r.id e ++ exhaustedLog cfg r))
      else if !(cfg.retryCondition (some e) none) then
        (none, attemptEvents cfg r ++ rejectEvents r.id e ++ nonRetryableLog cfg r)
      else
        (some (bump r now), attemptEvents cfg r)

/-- `retryPendingRequests` (lines 420-485): iterate the snapshot of the
registry in order, applying `sweepEntry` to each entry. -/
def retryPendingRequests (cfg : Config) (dispatch : String → Nat → DispatchResult)
    (now : Int) : List PendingRequest → List PendingRequest × List Event
  | [] => ([], [])
  | r :: rest =>
    let s := sweepEntry cfg dispatch now r
    let t := retryPendingRequests cfg dispatch now rest
    (s.1.toList ++ t.1, s.2 ++ t.2)

/-- `clearPendingRequests` (lines 495-502): invoke every entry's stored
`reject` wrapper with the `INTERCEPTOR_CLEARED` error, then empty the map
and log. -/
def clearPendingRequests (cfg : Config) (pending : List PendingRequest) :
    List PendingRequest × List Event :=
  ([], (pending.map (fun r => rejectEvents r.id clearedError)).flatten ++
    logEvs cfg "Cleared all pending requests")

/-- State of one engine instance: resolved configuration, the registry in
insertion order, and a counter standing for `generateRequestId` freshness. -/
structure EngineState where
  config : Config
  pending : List PendingRequest
  nextId : Nat

/-- A freshly constructed engine (`new UniversalApiRetryInterceptor(c)`). -/
def initState (c : ConfigPatch) : EngineState where
  config := mkConfig c
  pending := []
  nextId := 0

/-- `handleFailedRequest` (lines 362-388): build a new entry with
`retryCount` 0 and the current time, store it, and log.  The returned
promise is pending; its continuations are the entry's settle events. -/
def handleFailedRequest (s : EngineState) (url : String) (options : Nat) (now : Int) :
    EngineState × List Event :=
  let req : PendingRequest :=
    { id := s.nextId, url := url, options := options, retryCount := 0, timestamp := now }
  ({ s with pending := s.pending ++ [req], nextId := s.nextId + 1 },
    logEvs s.config ("Stored request " ++ toString req.id ++ " for retry. URL: " ++ url))

/-- The registry-mutating operations of the engine. -/
inductive Op where
  | enqueue (url : String) (options : Nat) (now : Int)
  | sweep (dispatch : String → Nat → DispatchResult) (now : Int)
  | clear
  | update (p : ConfigPatch)

/-- One operation applied to the engine state, with its emitted events.
`updateConfig` logs after assigning, so the log gate reads the new flag. -/
def step (s : EngineState) : Op → EngineState × List Event
  | Op.enqueue url options now => handleFailedRequest s url options now
  | Op.sweep d now =>
    let t := retryPendingRequests s.config d now s.pending
    ({ s with pending := t.1 }, t.2)
  | Op.clear =>
    let t := clearPendingRequests s.config s.pending
    ({ s with pending := t.1 }, t.2)
  | Op.update p =>
    ({ s with config := updateConfig s.config p },
      logEvs (updateConfig s.config p) "Configuration updated")

/-- A run of the engine over a list of operations. -/
def runOps (s : EngineState) : List Op → EngineState × List Event
  | [] => (s, [])
  | op :: ops =>
    let t := step s op
    let u := runOps t.1 ops
    (u.1, t.2 ++ u.2)

/-- `getPendingRequestsCount` (lines 491-493). -/
def getPendingRequestsCount (s : EngineState) : Nat :=
  s.pending.length

/-- The ids held in a registry snapshot. -/
def idsOf (l : List PendingRequest) : List Nat :=
  l.map PendingRequest.id

/-- Whether an event is a diagnostic log line. -/
def isLogEv : Event → Bool
  | Event.logged _ => true
  | _ => false

/-- The non-diagnostic events of a trace. -/
def obsEvents (evs : List Event) : List Event :=
  evs.filter (fun ev => !isLogEv ev)

/-- Whether an event is an invocation of entry `id`'s stored settle
continuations (`resolve` or the `reject` wrapper). -/
def isSettleFor (id : Nat) : Event → Bool
  | Event.resolveCalled i _ => i == id
  | Event.rejectCalled i _ => i == id
  | _ => false

/-- How many times entry `id`'s stored continuations were invoked. -/
def countSettle (id : Nat) (evs : List Event) : Nat :=
  evs.countP (isSettleFor id)

/-- Whether an event settles the caller's promise for entry `id` (a direct
resolve, or a rejection passed through the wrapper). -/
def isCallerSettleFor (id : Nat) : Event → Bool
  | Event.resolveCalled i _ => i == id
  | Event.callerRejected i _ => i == id
  | _ => false

/-- How many times the caller's promise for entry `id` was settled. -/
def countCallerSettle (id : Nat) (evs : List Event) : Nat :=
  evs.countP (isCallerSettleFor id)

/-- Well-formedness of an engine state: registry ids are distinct and below
the freshness counter. -/
def WF (s : EngineState) : Prop :=
  (idsOf s.pending).Nodup ∧ ∀ i ∈ idsOf s.pending, i < s.nextId

/-- The XHR `onerror` gate (lines 193-203): the failed request is queued
exactly when the configured predicate accepts the `NetworkError` value. -/
def xhrOnErrorQueued (cfg : Config) : Bool :=
  cfg.retryCondition (some networkErrorValue) none

/-- The all-defaults configuration. -/
def cfg0 : Config := mkConfig {}

/-- A sample freshly enqueued entry. -/
def req0 : PendingRequest :=
  { id := 0, url := "u", options := 0, retryCount := 0, timestamp := 0 }

/-- A sample engine state holding one pending entry. -/
def st1 : EngineState := { config := cfg0, pending := [req0], nextId := 1 }

/-- A transport that always throws a retryable (connectivity-class)
error. -/
def throwTypeError : String → Nat → DispatchResult :=
  fun _ _ => DispatchResult.threw { name := some "TypeError", message := none }

/-- A transport that always returns a plain 200 response. -/
def okDispatch : String → Nat → DispatchResult :=
  fun _ _ => DispatchResult.ok { ok := true, status := 200 }

/-- A transport that always throws a non-retryable (under the default
policy) error carrying no name and no message. -/
def throwPlainError : String → Nat → DispatchResult :=
  fun _ _ => DispatchResult.threw { name := none, message := none }

/-- A sample entry that has already accumulated two attempts. -/
def req2 : PendingRequest :=
  { id := 0, url := "u", options := 0, retryCount := 2, timestamp := 0 }

/-- A sample entry with one accumulated attempt, last tried at time 1000. -/
def reqOnce : PendingRequest :=
  { id := 0, url := "u", options := 0, retryCount := 1, timestamp := 1000 }

/-- A configuration whose retry ceiling was set to 1. -/
def cfgMax1 : Config := mkConfig { maxRetries := some 1 }

/-- Engine states reachable without any `updateConfig` call. -/
inductive ReachableNU : EngineState → Prop where
  | init (c : ConfigPatch) : ReachableNU (initState c)
  | enqueue (s : EngineState) (url : String) (options : Nat) (now : Int) :
      ReachableNU s → ReachableNU (step s (Op.enqueue url options now)).1
  | sweep (s : EngineState) (d : String → Nat → DispatchResult) (now : Int) :
      ReachableNU s → ReachableNU (step s (Op.sweep d now)).1
  | clear (s : EngineState) : ReachableNU s → ReachableNU (step s Op.clear).1

/-- Two configurations agreeing on everything the control flow reads
(everything except the diagnostic `enableLogging` flag). -/
def SameCore (c c' : Config) : Prop :=
  c.delayTime = c'.delayTime ∧ c.retryInterval = c'.retryInterval ∧
    c.maxRetries = c'.maxRetries ∧ c.retryCondition = c'.retryCondition

/-- Two engine states identical except possibly for the logging flag. -/
def StateRel (s s' : EngineState) : Prop :=
  s'.pending = s.pending ∧ s'.nextId = s.nextId ∧ SameCore s.config s'.config

/-- The same engine state with the logging flag overridden. -/
def setLogging (s : EngineState) (b : Bool) : EngineState :=
  { s with config := { s.config with enableLogging := b } }

/-- Enqueue once, let two sweeps fail with a retryable error, then lower
the retry ceiling to 1. -/
def opsLowerMax : List Op :=
  [Op.enqueue "u" 0 0, Op.sweep throwTypeError 1000, Op.sweep throwTypeError 2000,
    Op.update { maxRetries := some 1 }]

/-- The state reached by `opsLowerMax` from a default engine. -/
def stLowerMax : EngineState := (runOps (initState {}) opsLowerMax).1

/-- Enqueue once, let one sweep fail with a retryable error, then lower the
retry ceiling to 1. -/
def opsLowerOnce : List Op :=
  [Op.enqueue "u" 0 0, Op.sweep throwTypeError 1000, Op.update { maxRetries := some 1 }]

/-- The state reached by `opsLowerOnce` from a default engine. -/
def stLowerOnce : EngineState := (runOps (initState {}) opsLowerOnce).1

/-- A default engine holding one freshly enqueued entry. -/
def stEnq : EngineState := (step (initState {}) (Op.enqueue "u" 0 0)).1

end RetryInterceptor

/-- C5: the default retryability predicate returns true for a response with
status 503 (and for any status >= 500, 408, 429 or 0), false for status
404, and true for a no-response failure whose error is connectivity-class
(name `TypeError` or a message containing `fetch`). -/
theorem RetryInterceptor.default_policy_classification (ok : Bool) (s : Nat) (e : RetryInterceptor.ErrObj)
    (hs : 500 ≤ s ∨ s = 408 ∨ s = 429 ∨ s = 0)
    (he : e.name = some "TypeError" ∨
      ∃ m, e.message = some m ∧ RetryInterceptor.hasSubstr m "fetch" = true) :
    RetryInterceptor.defaultRetryCondition none (some { ok := ok, status := 503 }) = true ∧
    RetryInterceptor.defaultRetryCondition none (some { ok := ok, status := s }) = true ∧
    RetryInterceptor.defaultRetryCondition none (some { ok := ok, status := 404 }) = false ∧
    RetryInterceptor.defaultRetryCondition (some e) none = true := by
  refine ⟨by simp [RetryInterceptor.defaultRetryCondition], ?_, by simp [RetryInterceptor.defaultRetryCondition], ?_⟩
  · simp only [RetryInterceptor.defaultRetryCondition, Option.isNone_some, Bool.false_and,
      Bool.false_eq_true, if_false]
    rcases hs with h | h | h | h <;> simp [h]
  · simp only [RetryInterceptor.defaultRetryCondition, Option.isNone_none, Bool.true_and]
    rcases he with h | ⟨m, hm, hf⟩
    · simp [h]
    · simp [hm, hf]

/-- Witness for C5 at a concrete input. -/
theorem RetryInterceptor.default_policy_classification_witness :
    RetryInterceptor.defaultRetryCondition none (some { ok := false, status := 503 }) = true ∧
    RetryInterceptor.defaultRetryCondition none (some { ok := false, status := 500 }) = true ∧
    RetryInterceptor.defaultRetryCondition none (some { ok := false, status := 404 }) = false ∧
    RetryInterceptor.defaultRetryCondition
      (some { name := some "TypeError", message := none }) none = true :=
  RetryInterceptor.default_policy_classification false 500
    { name := some "TypeError", message := none }
    (Or.inl (by decide)) (Or.inl rfl)

/-- C10: the default predicate rejects every no-response error that is not a
`TypeError` and whose message does not contain `fetch`; in particular the
`NetworkError` value the XHR error path passes is classified non-retryable
under the default policy. -/
theorem RetryInterceptor.default_policy_rejects_other_errors (e : RetryInterceptor.ErrObj)
    (p : RetryInterceptor.ConfigPatch)
    (hname : e.name ≠ some "TypeError")
    (hmsg : ∀ m, e.message = some m → RetryInterceptor.hasSubstr m "fetch" = false)
    (hp : p.retryCondition = none) :
    RetryInterceptor.defaultRetryCondition (some e) none = false ∧
    RetryInterceptor.xhrOnErrorQueued (RetryInterceptor.mkConfig p) = false := by
  constructor
  · simp only [RetryInterceptor.defaultRetryCondition, Option.isNone_none, Bool.true_and]
    have h1 : (e.name == some "TypeError") = false := by
      simpa using hname
    cases hm : e.message with
    | none => simp [h1]
    | some m => simp [h1, hmsg m hm]
  · simp only [RetryInterceptor.xhrOnErrorQueued, RetryInterceptor.mkConfig, hp,
      Option.getD_none]
    decide

/-- Witness for C10 at the concrete `NetworkError` value and the default
configuration. -/
theorem RetryInterceptor.default_policy_rejects_other_errors_witness :
    RetryInterceptor.defaultRetryCondition (some RetryInterceptor.networkErrorValue) none = false ∧
    RetryInterceptor.xhrOnErrorQueued (RetryInterceptor.mkConfig {}) = false :=
  RetryInterceptor.default_policy_rejects_other_errors RetryInterceptor.networkErrorValue {}
    (by decide) (fun m h => by cases h) rfl

namespace RetryInterceptor

theorem obsEvents_nil : obsEvents [] = [] := rfl

theorem obsEvents_append (a b : List Event) :
    obsEvents (a ++ b) = obsEvents a ++ obsEvents b :=
  List.filter_append a b

theorem obsEvents_cons (e : Event) (l : List Event) :
    obsEvents (e :: l) = (if isLogEv e then [] else [e]) ++ obsEvents l := by
  cases he : isLogEv e <;> simp [obsEvents, List.filter_cons, he]

theorem obsEvents_logEvs (cfg : Config) (m : String) :
    obsEvents (logEvs cfg m) = [] := by
  unfold logEvs
  split <;> rfl

theorem obsEvents_rejectEvents (i : Nat) (e : ErrObj) :
    obsEvents (rejectEvents i e) = rejectEvents i e := by
  unfold rejectEvents
  split <;> rfl

theorem countSettle_nil (i : Nat) : countSettle i [] = 0 := rfl

theorem countSettle_append (i : Nat) (a b : List Event) :
    countSettle i (a ++ b) = countSettle i a + countSettle i b :=
  List.countP_append _ _ _

theorem countSettle_cons (i : Nat) (e : Event) (l : List Event) :
    countSettle i (e :: l) = (if isSettleFor i e then 1 else 0) + countSettle i l := by
  simp [countSettle, List.countP_cons, Nat.add_comm]

theorem countSettle_logEvs (i : Nat) (cfg : Config) (m : String) :
    countSettle i (logEvs cfg m) = 0 := by
  unfold logEvs
  split <;> rfl

theorem countSettle_rejectEvents (i j : Nat) (e : ErrObj) :
    countSettle i (rejectEvents j e) = if j = i then 1 else 0 := by
  unfold rejectEvents
  split <;> by_cases h : j = i <;> simp [countSettle, List.countP_cons, isSettleFor, h]

section SweepEquations

variable {cfg : Config} {d : String → Nat → DispatchResult} {now : Int}
variable {r : PendingRequest} {resp : Response} {e : ErrObj}

theorem sweepEntry_skip (h : now - r.timestamp < cfg.delayTime) :
    sweepEntry cfg d now r = (some r, []) := by
  simp [sweepEntry, h]

theorem sweepEntry_ok_resolve (hdue : ¬(now - r.timestamp < cfg.delayTime))
    (hd : d r.url r.options = DispatchResult.ok resp)
    (hok : (resp.ok || !(cfg.retryCondition none (some resp))) = true) :
    sweepEntry cfg d now r =
      (none, attemptEvents cfg r ++ Event.resolveCalled r.id resp :: succeededLog cfg r) := by
  simp [sweepEntry, hdue, hd, hok]

theorem sweepEntry_ok_exhaust (hdue : ¬(now - r.timestamp < cfg.delayTime))
    (hd : d r.url r.options = DispatchResult.ok resp)
    (hok : (resp.ok || !(cfg.retryCondition none (some resp))) = false)
    (hmax : cfg.maxRetries ≤ r.retryCount + 1) :
    sweepEntry cfg d now r =
      (none, attemptEvents cfg r ++ Event.onMaxRetriesExceeded r.id ::
        (rejectEvents r.id (maxRetriesError r.url) ++ exhaustedLog cfg r)) := by
  simp [sweepEntry, hdue, hd, hok, hmax]

theorem sweepEntry_ok_stay (hdue : ¬(now - r.timestamp < cfg.delayTime))
    (hd : d r.url r.options = DispatchResult.ok resp)
    (hok : (resp.ok || !(cfg.retryCondition none (some resp))) = false)
    (hmax : ¬(cfg.maxRetries ≤ r.retryCount + 1)) :
    sweepEntry cfg d now r = (some (bump r now), attemptEvents cfg r) := by
  simp [sweepEntry, hdue, hd, hok, hmax]

theorem sweepEntry_threw_exhaust (hdue : ¬(now - r.timestamp < cfg.delayTime))
    (hd : d r.url r.options = DispatchResult.threw e)
    (hmax : cfg.maxRetries ≤ r.retryCount + 1) :
    sweepEntry cfg d now r =
      (none, attemptEvents cfg r ++ Event.onMaxRetriesExceeded r.id ::
        (rejectEvents r.id e ++ exhaustedLog cfg r)) := by
  simp [sweepEntry, hdue, hd, hmax]

theorem sweepEntry_threw_reject (hdue : ¬(now - r.timestamp < cfg.delayTime))
    (hd : d r.url r.options = DispatchResult.threw e)
    (hmax : ¬(cfg.maxRetries ≤ r.retryCount + 1))
    (hnr : cfg.retryCondition (some e) none = false) :
    sweepEntry cfg d now r =
      (none, attemptEvents cfg r ++ rejectEvents r.id e ++ nonRetryableLog cfg r) := by
  simp [sweepEntry, hdue, hd, hmax, hnr]

theorem sweepEntry_threw_stay (hdue : ¬(now - r.timestamp < cfg.delayTime))
    (hd : d r.url r.options = DispatchResult.threw e)
    (hmax : ¬(cfg.maxRetries ≤ r.retryCount + 1))
    (hr : cfg.retryCondition (some e) none = true) :
    sweepEntry cfg d now r = (some (bump r now), attemptEvents cfg r) := by
  simp [sweepEntry, hdue, hd, hmax, hr]

end SweepEquations

theorem countSettle_attemptEvents (i : Nat) (cfg : Config) (r : PendingRequest) :
    countSettle i (attemptEvents cfg r) = 0 := by
  simp [attemptEvents, countSettle_cons, countSettle_logEvs, isSettleFor]

theorem countSettle_succeededLog (i : Nat) (cfg : Config) (r : PendingRequest) :
    countSettle i (succeededLog cfg r) = 0 := by
  simp [succeededLog, countSettle_logEvs]

theorem countSettle_exhaustedLog (i : Nat) (cfg : Config) (r : PendingRequest) :
    countSettle i (exhaustedLog cfg r) = 0 := by
  simp [exhaustedLog, countSettle_logEvs]

theorem countSettle_nonRetryableLog (i : Nat) (cfg : Config) (r : PendingRequest) :
    countSettle i (nonRetryableLog cfg r) = 0 := by
  simp [nonRetryableLog, countSettle_logEvs]

theorem obsEvents_attemptEvents (cfg : Config) (r : PendingRequest) :
    obsEvents (attemptEvents cfg r) = [Event.onRetry r.id (r.retryCount + 1)] := by
  simp [attemptEvents, obsEvents_cons, obsEvents_logEvs, isLogEv]

theorem obsEvents_succeededLog (cfg : Config) (r : PendingRequest) :
    obsEvents (succeededLog cfg r) = [] := by
  simp [succeededLog, obsEvents_logEvs]

theorem obsEvents_exhaustedLog (cfg : Config) (r : PendingRequest) :
    obsEvents (exhaustedLog cfg r) = [] := by
  simp [exhaustedLog, obsEvents_logEvs]

theorem obsEvents_nonRetryableLog (cfg : Config) (r : PendingRequest) :
    obsEvents (nonRetryableLog cfg r) = [] := by
  simp [nonRetryableLog, obsEvents_logEvs]

/-- Any entry kept by `sweepEntry` has the same id (and url and options)
as the processed entry: only `retryCount` and `timestamp` are mutated. -/
theorem sweepEntry_fst_id (cfg : Config) (d : String → Nat → DispatchResult) (now : Int)
    (r r' : PendingRequest) (h : (sweepEntry cfg d now r).1 = some r') :
    r'.id = r.id ∧ r'.url = r.url ∧ r'.options = r.options := by
  by_cases hdue : now - r.timestamp < cfg.delayTime
  · rw [sweepEntry_skip hdue] at h
    cases h
    exact ⟨rfl, rfl, rfl⟩
  · cases hd : d r.url r.options with
    | ok resp =>
      cases hok : (resp.ok || !(cfg.retryCondition none (some resp))) with
      | true =>
        rw [sweepEntry_ok_resolve hdue hd hok] at h
        cases h
      | false =>
        by_cases hmax : cfg.maxRetries ≤ r.retryCount + 1
        · rw [sweepEntry_ok_exhaust hdue hd hok hmax] at h
          cases h
        · rw [sweepEntry_ok_stay hdue hd hok hmax] at h
          cases h
          exact ⟨rfl, rfl, rfl⟩
    | threw e =>
      by_cases hmax : cfg.maxRetries ≤ r.retryCount + 1
      · rw [sweepEntry_threw_exhaust hdue hd hmax] at h
        cases h
      · cases hr : cfg.retryCondition (some e) none with
        | false =>
          rw [sweepEntry_threw_reject hdue hd hmax hr] at h
          cases h
        | true =>
          rw [sweepEntry_threw_stay hdue hd hmax hr] at h
          cases h
          exact ⟨rfl, rfl, rfl⟩

/-- The settle-continuation invocations emitted by `sweepEntry` for an id:
exactly one when the processed entry has that id and is removed, none
otherwise. -/
theorem sweepEntry_countSettle (cfg : Config) (d : String → Nat → DispatchResult)
    (now : Int) (r : PendingRequest) (i : Nat) :
    countSettle i (sweepEntry cfg d now r).2 =
      if r.id = i ∧ (sweepEntry cfg d now r).1 = none then 1 else 0 := by
  by_cases hdue : now - r.timestamp < cfg.delayTime
  · rw [sweepEntry_skip hdue]
    simp [countSettle_nil]
  · cases hd : d r.url r.options with
    | ok resp =>
      cases hok : (resp.ok || !(cfg.retryCondition none (some resp))) with
      | true =>
        rw [sweepEntry_ok_resolve hdue hd hok]
        by_cases hi : r.id = i <;>
          simp [countSettle_append, countSettle_attemptEvents, countSettle_cons,
            countSettle_succeededLog, isSettleFor, hi]
      | false =>
        by_cases hmax : cfg.maxRetries ≤ r.retryCount + 1
        · rw [sweepEntry_ok_exhaust hdue hd hok hmax]
          by_cases hi : r.id = i <;>
            simp [countSettle_append, countSettle_attemptEvents, countSettle_cons,
              countSettle_rejectEvents, countSettle_exhaustedLog, isSettleFor, hi]
        · rw [sweepEntry_ok_stay hdue hd hok hmax]
          simp [countSettle_attemptEvents]
    | threw e =>
      by_cases hmax : cfg.maxRetries ≤ r.retryCount + 1
      · rw [sweepEntry_threw_exhaust hdue hd hmax]
        by_cases hi : r.id = i <;>
          simp [countSettle_append, countSettle_attemptEvents, countSettle_cons,
            countSettle_rejectEvents, countSettle_exhaustedLog, isSettleFor, hi]
      · cases hr : cfg.retryCondition (some e) none with
        | false =>
          rw [sweepEntry_threw_reject hdue hd hmax hr]
          by_cases hi : r.id = i <;>
            simp [countSettle_append, countSettle_attemptEvents,
              countSettle_rejectEvents, countSettle_nonRetryableLog, hi]
        | true =>
          rw [sweepEntry_threw_stay hdue hd hmax hr]
          simp [countSettle_attemptEvents]

theorem idsOf_nil : idsOf [] = [] := rfl

theorem idsOf_cons (r : PendingRequest) (l : List PendingRequest) :
    idsOf (r :: l) = r.id :: idsOf l := rfl

theorem idsOf_append (a b : List PendingRequest) :
    idsOf (a ++ b) = idsOf a ++ idsOf b :=
  List.map_append _ a b

/-- A sweep only removes or rewrites entries: the ids of the surviving
registry form a sublist of the ids of the snapshot. -/
theorem retry_ids_sublist (cfg : Config) (d : String → Nat → DispatchResult) (now : Int)
    (l : List PendingRequest) :
    List.Sublist (idsOf (retryPendingRequests cfg d now l).1) (idsOf l) := by
  induction l with
  | nil => simp [retryPendingRequests, idsOf]
  | cons r rest ih =>
    simp only [retryPendingRequests]
    cases hS : (sweepEntry cfg d now r).1 with
    | none =>
      simpa [Option.toList, idsOf_cons] using ih.cons r.id
    | some r' =>
      have hid := (sweepEntry_fst_id cfg d now r r' hS).1
      simp only [Option.toList, List.cons_append, List.nil_append, idsOf_cons]
      rw [hid]
      exact ih.cons₂ r.id

theorem retry_ids_mem (cfg : Config) (d : String → Nat → DispatchResult) (now : Int)
    (l : List PendingRequest) (i : Nat)
    (h : i ∈ idsOf (retryPendingRequests cfg d now l).1) : i ∈ idsOf l :=
  (retry_ids_sublist cfg d now l).subset h

/-- During one sweep over a registry with distinct ids, an id's stored
settle continuations are invoked exactly once if the sweep removes that
entry and not at all otherwise. -/
theorem retry_countSettle (cfg : Config) (d : String → Nat → DispatchResult) (now : Int) :
    ∀ l : List PendingRequest, (idsOf l).Nodup → ∀ i : Nat,
      countSettle i (retryPendingRequests cfg d now l).2 =
        if i ∈ idsOf l ∧ i ∉ idsOf (retryPendingRequests cfg d now l).1 then 1 else 0 := by
  intro l
  induction l with
  | nil =>
    intro _ i
    simp [retryPendingRequests, countSettle_nil, idsOf]
  | cons r rest ih =>
    intro hnd i
    rw [idsOf_cons] at hnd
    obtain ⟨hhead, htail⟩ := List.nodup_cons.mp hnd
    simp only [retryPendingRequests]
    rw [countSettle_append, sweepEntry_countSettle, ih htail i]
    rcases Option.eq_none_or_eq_some (sweepEntry cfg d now r).1 with hS | ⟨r', hS⟩
    · by_cases hi : r.id = i
      · subst hi
        have hmemrest : r.id ∉ idsOf (retryPendingRequests cfg d now rest).1 :=
          fun hmem => hhead (retry_ids_mem cfg d now rest r.id hmem)
        simp [hS, idsOf_cons, hhead, hmemrest]
      · have hi' : ¬i = r.id := fun h => hi h.symm
        simp [hS, idsOf_cons, hi, hi']
    · have hid := (sweepEntry_fst_id cfg d now r r' hS).1
      by_cases hi : r.id = i
      · subst hi
        simp [hS, idsOf_cons, hhead, hid]
      · have hi' : ¬i = r.id := fun h => hi h.symm
        simp [hS, idsOf_cons, hi, hid, hi']

/-- `clearPendingRequests` invokes the stored `reject` of an id exactly
once when the id is in the registry (ids distinct), never otherwise. -/
theorem clear_countSettle :
    ∀ l : List PendingRequest, (idsOf l).Nodup → ∀ i : Nat,
      countSettle i ((l.map (fun r => rejectEvents r.id clearedError)).flatten) =
        if i ∈ idsOf l then 1 else 0 := by
  intro l
  induction l with
  | nil =>
    intro _ i
    simp [countSettle_nil, idsOf]
  | cons r rest ih =>
    intro hnd i
    rw [idsOf_cons] at hnd
    obtain ⟨hhead, htail⟩ := List.nodup_cons.mp hnd
    simp only [List.map_cons, List.flatten_cons]
    rw [countSettle_append, countSettle_rejectEvents, ih htail i]
    by_cases hi : r.id = i
    · subst hi
      simp [idsOf_cons, hhead]
    · have hi' : ¬i = r.id := fun h => hi h.symm
      simp [idsOf_cons, hi, hi']

/-- Every operation preserves well-formedness of the engine state. -/
theorem step_WF (s : EngineState) (op : Op) (h : WF s) : WF (step s op).1 := by
  obtain ⟨hnd, hbound⟩ := h
  cases op with
  | enqueue url options now =>
    constructor
    · simp only [step, handleFailedRequest, idsOf_append, idsOf_cons, idsOf_nil]
      rw [List.nodup_append]
      refine ⟨hnd, List.nodup_singleton _, ?_⟩
      intro a ha hb
      have hb' : a = s.nextId := by simpa using hb
      exact absurd (hbound a ha) (by rw [hb']; omega)
    · intro i hi
      simp only [step, handleFailedRequest, idsOf_append, idsOf_cons, idsOf_nil] at hi
      rcases List.mem_append.mp hi with hi | hi
      · exact Nat.lt_succ_of_lt (hbound i hi)
      · have : i = s.nextId := by simpa using hi
        simp [step, handleFailedRequest, this]
  | sweep d now =>
    constructor
    · exact (retry_ids_sublist s.config d now s.pending).nodup hnd
    · intro i hi
      exact hbound i (retry_ids_mem s.config d now s.pending i hi)
  | clear =>
    constructor
    · simp [step, clearPendingRequests, idsOf]
    · intro i hi
      simp [step, clearPendingRequests, idsOf] at hi
  | update p =>
    exact ⟨hnd, hbound⟩

/-- Across any single operation on a well-formed state, an entry's stored
settle continuations fire exactly once when the operation removes the entry
from the registry, and not at all otherwise. -/
theorem step_countSettle (s : EngineState) (op : Op) (h : WF s) (i : Nat) :
    countSettle i (step s op).2 =
      if i ∈ idsOf s.pending ∧ i ∉ idsOf (step s op).1.pending then 1 else 0 := by
  cases op with
  | enqueue url options now =>
    have hfalse : ¬(i ∈ idsOf s.pending ∧
        i ∉ idsOf (step s (Op.enqueue url options now)).1.pending) := by
      rintro ⟨h1, h2⟩
      exact h2 (by simp [step, handleFailedRequest, idsOf_append, h1])
    rw [if_neg hfalse]
    simp [step, handleFailedRequest, countSettle_logEvs]
  | sweep d now =>
    simpa [step] using retry_countSettle s.config d now s.pending h.1 i
  | clear =>
    have := clear_countSettle s.pending h.1 i
    simp only [step, clearPendingRequests]
    rw [countSettle_append, this, countSettle_logEvs]
    simp [idsOf]
  | update p =>
    have hfalse : ¬(i ∈ idsOf s.pending ∧
        i ∉ idsOf (step s (Op.update p)).1.pending) := by
      rintro ⟨h1, h2⟩
      exact h2 (by simpa [step] using h1)
    rw [if_neg hfalse]
    simp [step, countSettle_logEvs]

/-- Every event emitted by `clearPendingRequests` is either the invocation
of a queued entry's stored `reject` with the `INTERCEPTOR_CLEARED` error,
or a diagnostic log line. -/
theorem clear_events_shape (cfg : Config) (l : List PendingRequest) (ev : Event)
    (hev : ev ∈ (clearPendingRequests cfg l).2) :
    (∃ r ∈ l, ev = Event.rejectCalled r.id clearedError) ∨ isLogEv ev = true := by
  simp only [clearPendingRequests] at hev
  rcases List.mem_append.mp hev with hev | hev
  · left
    obtain ⟨block, hblock, hevb⟩ := List.mem_flatten.mp hev
    obtain ⟨r, hr, rfl⟩ := List.mem_map.mp hblock
    have hb : rejectEvents r.id clearedError = [Event.rejectCalled r.id clearedError] := by
      simp [rejectEvents, clearedError]
    rw [hb] at hevb
    exact ⟨r, hr, by simpa using hevb⟩
  · right
    by_cases hl : cfg.enableLogging
    · have : ev = Event.logged "Cleared all pending requests" := by
        simpa [logEvs, hl] using hev
      simp [this, isLogEv]
    · simp [logEvs, hl] at hev

/-- Clearing never settles any caller's deferred handle: the `reject`
wrapper suppresses the `INTERCEPTOR_CLEARED` error. -/
theorem clear_countCallerSettle (cfg : Config) (l : List PendingRequest) (i : Nat) :
    countCallerSettle i (clearPendingRequests cfg l).2 = 0 := by
  refine List.countP_eq_zero.mpr ?_
  intro ev hev
  rcases clear_events_shape cfg l ev hev with ⟨r, _, rfl⟩ | hlog
  · simp [isCallerSettleFor]
  · cases ev <;> simp_all [isLogEv, isCallerSettleFor]

end RetryInterceptor

/-- C2: across any single engine operation on a well-formed state, each
entry's stored settle continuations (`resolve`/`reject`) are invoked
exactly once when the operation removes the entry from the registry and
never otherwise, and well-formedness (distinct registry ids, all below the
freshness counter, so a settled id can never reappear) is preserved. -/
theorem RetryInterceptor.settle_exactly_once_on_removal (s : RetryInterceptor.EngineState)
    (op : RetryInterceptor.Op) (i : Nat) (h : RetryInterceptor.WF s) :
    RetryInterceptor.WF (RetryInterceptor.step s op).1 ∧
    RetryInterceptor.countSettle i (RetryInterceptor.step s op).2 =
      (if i ∈ RetryInterceptor.idsOf s.pending ∧
          i ∉ RetryInterceptor.idsOf (RetryInterceptor.step s op).1.pending then 1 else 0) :=
  ⟨RetryInterceptor.step_WF s op h, RetryInterceptor.step_countSettle s op h i⟩

/-- Witness for C2 at a concrete one-entry state and the clear operation. -/
theorem RetryInterceptor.settle_exactly_once_on_removal_witness :
    RetryInterceptor.WF (RetryInterceptor.step RetryInterceptor.st1 RetryInterceptor.Op.clear).1 ∧
    RetryInterceptor.countSettle 0
        (RetryInterceptor.step RetryInterceptor.st1 RetryInterceptor.Op.clear).2 =
      (if 0 ∈ RetryInterceptor.idsOf RetryInterceptor.st1.pending ∧
          0 ∉ RetryInterceptor.idsOf
            (RetryInterceptor.step RetryInterceptor.st1 RetryInterceptor.Op.clear).1.pending
        then 1 else 0) :=
  RetryInterceptor.settle_exactly_once_on_removal RetryInterceptor.st1
    RetryInterceptor.Op.clear 0 ⟨by decide, by decide⟩

/-- C1 counterexample: clearing a one-entry registry empties it and runs
the entry's stored `reject` wrapper once, yet the caller's deferred handle
is never settled — the wrapper swallows the CLEARED error, so the caller is
left hanging, contradicting the claim. -/
theorem RetryInterceptor.clear_unsettled_counterexample :
    RetryInterceptor.getPendingRequestsCount
        (RetryInterceptor.step RetryInterceptor.st1 RetryInterceptor.Op.clear).1 = 0 ∧
    RetryInterceptor.countSettle 0
        (RetryInterceptor.step RetryInterceptor.st1 RetryInterceptor.Op.clear).2 = 1 ∧
    RetryInterceptor.countCallerSettle 0
        (RetryInterceptor.step RetryInterceptor.st1 RetryInterceptor.Op.clear).2 = 0 := by
  decide

/-- C1 amended: `clearPendingRequests` empties the registry (pending count
0 immediately afterwards) and invokes each queued entry's stored failure
continuation exactly once with the CLEARED error — never a success, never a
retries-exhausted settlement — but it does not settle any caller's deferred
handle, because the entry's `reject` wrapper suppresses the CLEARED
error. -/
theorem RetryInterceptor.clear_settles_wrapper_only (cfg : RetryInterceptor.Config)
    (l : List RetryInterceptor.PendingRequest) (r : RetryInterceptor.PendingRequest)
    (i : Nat) (ev : RetryInterceptor.Event)
    (hnd : (RetryInterceptor.idsOf l).Nodup) (hr : r ∈ l)
    (hev : ev ∈ (RetryInterceptor.clearPendingRequests cfg l).2) :
    (RetryInterceptor.clearPendingRequests cfg l).1 = [] ∧
    RetryInterceptor.Event.rejectCalled r.id RetryInterceptor.clearedError ∈
      (RetryInterceptor.clearPendingRequests cfg l).2 ∧
    RetryInterceptor.countSettle r.id (RetryInterceptor.clearPendingRequests cfg l).2 = 1 ∧
    RetryInterceptor.countCallerSettle i (RetryInterceptor.clearPendingRequests cfg l).2 = 0 ∧
    ((∃ r' ∈ l, ev = RetryInterceptor.Event.rejectCalled r'.id RetryInterceptor.clearedError) ∨
      RetryInterceptor.isLogEv ev = true) := by
  refine ⟨rfl, ?_, ?_, RetryInterceptor.clear_countCallerSettle cfg l i,
    RetryInterceptor.clear_events_shape cfg l ev hev⟩
  · simp only [RetryInterceptor.clearPendingRequests]
    refine List.mem_append_left _ (List.mem_flatten.mpr
      ⟨RetryInterceptor.rejectEvents r.id RetryInterceptor.clearedError,
        List.mem_map_of_mem _ hr, ?_⟩)
    simp [RetryInterceptor.rejectEvents]
  · simp only [RetryInterceptor.clearPendingRequests]
    rw [RetryInterceptor.countSettle_append, RetryInterceptor.clear_countSettle l hnd r.id,
      RetryInterceptor.countSettle_logEvs]
    have hmem : r.id ∈ RetryInterceptor.idsOf l := List.mem_map_of_mem _ hr
    simp [hmem]

/-- Witness for C1's amended claim at a concrete one-entry registry. -/
theorem RetryInterceptor.clear_settles_wrapper_only_witness :
    (RetryInterceptor.clearPendingRequests RetryInterceptor.cfg0 [RetryInterceptor.req0]).1 = [] ∧
    RetryInterceptor.Event.rejectCalled RetryInterceptor.req0.id RetryInterceptor.clearedError ∈
      (RetryInterceptor.clearPendingRequests RetryInterceptor.cfg0 [RetryInterceptor.req0]).2 ∧
    RetryInterceptor.countSettle RetryInterceptor.req0.id
      (RetryInterceptor.clearPendingRequests RetryInterceptor.cfg0 [RetryInterceptor.req0]).2 = 1 ∧
    RetryInterceptor.countCallerSettle 0
      (RetryInterceptor.clearPendingRequests RetryInterceptor.cfg0 [RetryInterceptor.req0]).2 = 0 ∧
    ((∃ r' ∈ [RetryInterceptor.req0],
        RetryInterceptor.Event.rejectCalled RetryInterceptor.req0.id RetryInterceptor.clearedError =
          RetryInterceptor.Event.rejectCalled r'.id RetryInterceptor.clearedError) ∨
      RetryInterceptor.isLogEv
        (RetryInterceptor.Event.rejectCalled RetryInterceptor.req0.id
          RetryInterceptor.clearedError) = true) :=
  RetryInterceptor.clear_settles_wrapper_only RetryInterceptor.cfg0 [RetryInterceptor.req0]
    RetryInterceptor.req0 0
    (RetryInterceptor.Event.rejectCalled RetryInterceptor.req0.id RetryInterceptor.clearedError)
    (by decide) (by decide) (by decide)

namespace RetryInterceptor

/-- An entry that a sweep settles (removes) has its id absent from the
surviving registry, provided ids were distinct. -/
theorem settled_id_not_mem (cfg : Config) (d : String → Nat → DispatchResult) (now : Int) :
    ∀ (l : List PendingRequest) (r : PendingRequest), (idsOf l).Nodup → r ∈ l →
      (sweepEntry cfg d now r).1 = none →
      r.id ∉ idsOf (retryPendingRequests cfg d now l).1 := by
  intro l
  induction l with
  | nil =>
    intro r _ hr
    cases hr
  | cons a rest ih =>
    intro r hnd hr hs
    rw [idsOf_cons] at hnd
    obtain ⟨hhead, htail⟩ := List.nodup_cons.mp hnd
    simp only [retryPendingRequests]
    rcases List.mem_cons.mp hr with rfl | hr
    · rw [hs]
      simp only [Option.toList, List.nil_append]
      intro hmem
      exact hhead (retry_ids_mem cfg d now rest r.id hmem)
    · have hne : a.id ≠ r.id := fun h => hhead (h ▸ List.mem_map_of_mem _ hr)
      intro hmem
      rcases Option.eq_none_or_eq_some (sweepEntry cfg d now a).1 with hS | ⟨a', hS⟩
      · rw [hS] at hmem
        simp only [Option.toList, List.nil_append] at hmem
        exact ih r htail hr hs hmem
      · rw [hS] at hmem
        have hid := (sweepEntry_fst_id cfg d now a a' hS).1
        simp only [Option.toList, List.cons_append, List.nil_append, idsOf_cons] at hmem
        rcases List.mem_cons.mp hmem with h | h
        · exact hne ((h.trans hid).symm)
        · exact ih r htail hr hs h

/-- An event emitted while sweeping an entry of the snapshot appears in
the events of the whole sweep. -/
theorem sweep_event_mem (cfg : Config) (d : String → Nat → DispatchResult) (now : Int) :
    ∀ (l : List PendingRequest) (r : PendingRequest) (ev : Event), r ∈ l →
      ev ∈ (sweepEntry cfg d now r).2 →
      ev ∈ (retryPendingRequests cfg d now l).2 := by
  intro l
  induction l with
  | nil =>
    intro r ev hr
    cases hr
  | cons a rest ih =>
    intro r ev hr hev
    simp only [retryPendingRequests]
    rcases List.mem_cons.mp hr with rfl | hr
    · exact List.mem_append_left _ hev
    · exact List.mem_append_right _ (ih r ev hr hev)

end RetryInterceptor

/-- C6: an entry whose last attempt is more recent than `delayTime` is
skipped by the sweep: no `retryCount` increment, no `onRetry` call, no
event at all, the entry survives unchanged, and the transport is never
consulted (the result is the same for every dispatch function). -/
theorem RetryInterceptor.not_due_entry_skipped (cfg : RetryInterceptor.Config)
    (d d' : String → Nat → RetryInterceptor.DispatchResult) (now : Int)
    (r : RetryInterceptor.PendingRequest)
    (h : now - r.timestamp < cfg.delayTime) :
    RetryInterceptor.sweepEntry cfg d now r = (some r, []) ∧
    RetryInterceptor.sweepEntry cfg d now r = RetryInterceptor.sweepEntry cfg d' now r := by
  constructor
  · exact RetryInterceptor.sweepEntry_skip h
  · rw [RetryInterceptor.sweepEntry_skip h, RetryInterceptor.sweepEntry_skip h]

/-- Witness for C6: an entry enqueued at time 0 is skipped at time 0. -/
theorem RetryInterceptor.not_due_entry_skipped_witness :
    RetryInterceptor.sweepEntry RetryInterceptor.cfg0 RetryInterceptor.throwTypeError 0
        RetryInterceptor.req0 = (some RetryInterceptor.req0, []) ∧
    RetryInterceptor.sweepEntry RetryInterceptor.cfg0 RetryInterceptor.throwTypeError 0
        RetryInterceptor.req0 =
      RetryInterceptor.sweepEntry RetryInterceptor.cfg0 RetryInterceptor.okDispatch 0
        RetryInterceptor.req0 :=
  RetryInterceptor.not_due_entry_skipped RetryInterceptor.cfg0 RetryInterceptor.throwTypeError
    RetryInterceptor.okDispatch 0 RetryInterceptor.req0 (by decide)

/-- C7: when a due entry's re-dispatch returns a response that is ok, or a
failure response the policy deems non-retryable, the sweep removes the
entry from the registry and fires its success continuation with exactly
that response (a non-retryable failure response still settles the caller
with the response, not as an error). -/
theorem RetryInterceptor.dispatch_success_resolves (cfg : RetryInterceptor.Config)
    (d : String → Nat → RetryInterceptor.DispatchResult) (now : Int)
    (r : RetryInterceptor.PendingRequest) (resp : RetryInterceptor.Response)
    (l : List RetryInterceptor.PendingRequest)
    (hnd : (RetryInterceptor.idsOf l).Nodup) (hmem : r ∈ l)
    (hdue : ¬(now - r.timestamp < cfg.delayTime))
    (hd : d r.url r.options = RetryInterceptor.DispatchResult.ok resp)
    (hok : resp.ok = true ∨ cfg.retryCondition none (some resp) = false) :
    (RetryInterceptor.sweepEntry cfg d now r).1 = none ∧
    RetryInterceptor.obsEvents (RetryInterceptor.sweepEntry cfg d now r).2 =
      [RetryInterceptor.Event.onRetry r.id (r.retryCount + 1),
        RetryInterceptor.Event.resolveCalled r.id resp] ∧
    r.id ∉ RetryInterceptor.idsOf (RetryInterceptor.retryPendingRequests cfg d now l).1 ∧
    RetryInterceptor.Event.resolveCalled r.id resp ∈
      (RetryInterceptor.retryPendingRequests cfg d now l).2 := by
  have hok' : (resp.ok || !(cfg.retryCondition none (some resp))) = true := by
    rcases hok with h | h <;> simp [h]
  have hE := RetryInterceptor.sweepEntry_ok_resolve hdue hd hok'
  have hfst : (RetryInterceptor.sweepEntry cfg d now r).1 = none := by rw [hE]
  have hevmem : RetryInterceptor.Event.resolveCalled r.id resp ∈
      (RetryInterceptor.sweepEntry cfg d now r).2 := by
    rw [hE]
    exact List.mem_append_right _ (List.mem_cons_self _ _)
  refine ⟨hfst, ?_, ?_, ?_⟩
  · rw [hE]
    simp only [RetryInterceptor.obsEvents_append, RetryInterceptor.obsEvents_attemptEvents,
      RetryInterceptor.obsEvents_cons, RetryInterceptor.obsEvents_succeededLog,
      RetryInterceptor.isLogEv]
    rfl
  · exact RetryInterceptor.settled_id_not_mem cfg d now l r hnd hmem hfst
  · exact RetryInterceptor.sweep_event_mem cfg d now l r _ hmem hevmem

/-- Witness for C7 on a one-entry registry and an ok 200 response. -/
theorem RetryInterceptor.dispatch_success_resolves_witness :
    (RetryInterceptor.sweepEntry RetryInterceptor.cfg0 RetryInterceptor.okDispatch 1000
        RetryInterceptor.req0).1 = none ∧
    RetryInterceptor.obsEvents (RetryInterceptor.sweepEntry RetryInterceptor.cfg0
        RetryInterceptor.okDispatch 1000 RetryInterceptor.req0).2 =
      [RetryInterceptor.Event.onRetry RetryInterceptor.req0.id
          (RetryInterceptor.req0.retryCount + 1),
        RetryInterceptor.Event.resolveCalled RetryInterceptor.req0.id
          { ok := true, status := 200 }] ∧
    RetryInterceptor.req0.id ∉ RetryInterceptor.idsOf
      (RetryInterceptor.retryPendingRequests RetryInterceptor.cfg0 RetryInterceptor.okDispatch
        1000 [RetryInterceptor.req0]).1 ∧
    RetryInterceptor.Event.resolveCalled RetryInterceptor.req0.id { ok := true, status := 200 } ∈
      (RetryInterceptor.retryPendingRequests RetryInterceptor.cfg0 RetryInterceptor.okDispatch
        1000 [RetryInterceptor.req0]).2 :=
  RetryInterceptor.dispatch_success_resolves RetryInterceptor.cfg0 RetryInterceptor.okDispatch
    1000 RetryInterceptor.req0 { ok := true, status := 200 } [RetryInterceptor.req0]
    (by decide) (by decide) (by decide) rfl (Or.inl rfl)

/-- C8: when a due entry's re-dispatch throws: at or above the retry
ceiling (counting the attempt just made) the entry is removed, the
exhaustion observer runs and the stored failure continuation fires with the
error; below the ceiling with a non-retryable error the entry is removed
and its failure continuation fires immediately with that error; below the
ceiling with a retryable error the entry stays queued with its incremented
count and refreshed timestamp. -/
theorem RetryInterceptor.thrown_error_cases (cfg : RetryInterceptor.Config)
    (d : String → Nat → RetryInterceptor.DispatchResult) (now : Int)
    (r : RetryInterceptor.PendingRequest) (e : RetryInterceptor.ErrObj)
    (hdue : ¬(now - r.timestamp < cfg.delayTime))
    (hd : d r.url r.options = RetryInterceptor.DispatchResult.threw e) :
    (cfg.maxRetries ≤ r.retryCount + 1 →
      (RetryInterceptor.sweepEntry cfg d now r).1 = none ∧
      RetryInterceptor.obsEvents (RetryInterceptor.sweepEntry cfg d now r).2 =
        RetryInterceptor.Event.onRetry r.id (r.retryCount + 1) ::
          RetryInterceptor.Event.onMaxRetriesExceeded r.id ::
            RetryInterceptor.rejectEvents r.id e) ∧
    (¬(cfg.maxRetries ≤ r.retryCount + 1) → cfg.retryCondition (some e) none = false →
      (RetryInterceptor.sweepEntry cfg d now r).1 = none ∧
      RetryInterceptor.obsEvents (RetryInterceptor.sweepEntry cfg d now r).2 =
        RetryInterceptor.Event.onRetry r.id (r.retryCount + 1) ::
          RetryInterceptor.rejectEvents r.id e) ∧
    (¬(cfg.maxRetries ≤ r.retryCount + 1) → cfg.retryCondition (some e) none = true →
      RetryInterceptor.sweepEntry cfg d now r =
        (some (RetryInterceptor.bump r now), RetryInterceptor.attemptEvents cfg r)) := by
  refine ⟨?_, ?_, ?_⟩
  · intro hmax
    have hE := RetryInterceptor.sweepEntry_threw_exhaust hdue hd hmax
    refine ⟨by rw [hE], ?_⟩
    rw [hE]
    simp only [RetryInterceptor.obsEvents_append, RetryInterceptor.obsEvents_attemptEvents,
      RetryInterceptor.obsEvents_cons, RetryInterceptor.obsEvents_exhaustedLog,
      RetryInterceptor.obsEvents_rejectEvents, RetryInterceptor.isLogEv]
    simp
  · intro hmax hnr
    have hE := RetryInterceptor.sweepEntry_threw_reject hdue hd hmax hnr
    refine ⟨by rw [hE], ?_⟩
    rw [hE]
    simp only [RetryInterceptor.obsEvents_append, RetryInterceptor.obsEvents_attemptEvents,
      RetryInterceptor.obsEvents_nonRetryableLog, RetryInterceptor.obsEvents_rejectEvents,
      RetryInterceptor.isLogEv]
    simp
  · intro hmax hr
    exact RetryInterceptor.sweepEntry_threw_stay hdue hd hmax hr

/-- Witness for C8 at the exhaustion case: default ceiling 3, an entry on
its third attempt, a thrown connectivity error. -/
theorem RetryInterceptor.thrown_error_cases_witness :
    (RetryInterceptor.sweepEntry RetryInterceptor.cfg0 RetryInterceptor.throwTypeError 1000
        RetryInterceptor.req2).1 = none ∧
    RetryInterceptor.obsEvents (RetryInterceptor.sweepEntry RetryInterceptor.cfg0
        RetryInterceptor.throwTypeError 1000 RetryInterceptor.req2).2 =
      RetryInterceptor.Event.onRetry RetryInterceptor.req2.id
          (RetryInterceptor.req2.retryCount + 1) ::
        RetryInterceptor.Event.onMaxRetriesExceeded RetryInterceptor.req2.id ::
          RetryInterceptor.rejectEvents RetryInterceptor.req2.id
            { name := some "TypeError", message := none } :=
  (RetryInterceptor.thrown_error_cases RetryInterceptor.cfg0 RetryInterceptor.throwTypeError
    1000 RetryInterceptor.req2 { name := some "TypeError", message := none }
    (by decide) rfl).1 (by decide)

/-- C4 counterexample: with `retryCount = 1` accumulated and the ceiling
lowered to 1, the next due sweep still dispatches one more attempt
(`onRetry` fires) and, the attempt succeeding, settles the entry by its
success continuation — no exhaustion observer, no failure continuation —
contradicting "terminally exhausts it rather than dispatching another
attempt". -/
theorem RetryInterceptor.lowered_ceiling_counterexample :
    RetryInterceptor.stLowerOnce.pending.map RetryInterceptor.PendingRequest.retryCount = [1] ∧
    RetryInterceptor.stLowerOnce.config.maxRetries = 1 ∧
    (RetryInterceptor.step RetryInterceptor.stLowerOnce
        (RetryInterceptor.Op.sweep RetryInterceptor.okDispatch 2000)).2 =
      [RetryInterceptor.Event.onRetry 0 2,
        RetryInterceptor.Event.resolveCalled 0 { ok := true, status := 200 }] ∧
    (RetryInterceptor.step RetryInterceptor.stLowerOnce
        (RetryInterceptor.Op.sweep RetryInterceptor.okDispatch 2000)).1.pending = [] := by
  decide

/-- C4 amended: once an entry's accumulated `retryCount` has reached the
(possibly lowered) `maxRetries`, the next due sweep performs one more
dispatch for it and never leaves it queued: the entry resolves successfully
if that dispatch yields an ok or non-retryable response, and otherwise it
is terminally exhausted (removed, exhaustion observer invoked, failure
continuation fired). -/
theorem RetryInterceptor.lowered_ceiling_next_sweep_settles (cfg : RetryInterceptor.Config)
    (d : String → Nat → RetryInterceptor.DispatchResult) (now : Int)
    (r : RetryInterceptor.PendingRequest)
    (hmax : cfg.maxRetries ≤ r.retryCount)
    (hdue : ¬(now - r.timestamp < cfg.delayTime)) :
    (RetryInterceptor.sweepEntry cfg d now r).1 = none ∧
    RetryInterceptor.Event.onRetry r.id (r.retryCount + 1) ∈
      (RetryInterceptor.sweepEntry cfg d now r).2 ∧
    (match d r.url r.options with
     | RetryInterceptor.DispatchResult.ok resp =>
        if (resp.ok || !(cfg.retryCondition none (some resp))) = true then
          RetryInterceptor.Event.resolveCalled r.id resp ∈
            (RetryInterceptor.sweepEntry cfg d now r).2
        else
          RetryInterceptor.Event.onMaxRetriesExceeded r.id ∈
            (RetryInterceptor.sweepEntry cfg d now r).2 ∧
          RetryInterceptor.Event.rejectCalled r.id (RetryInterceptor.maxRetriesError r.url) ∈
            (RetryInterceptor.sweepEntry cfg d now r).2
     | RetryInterceptor.DispatchResult.threw e =>
        RetryInterceptor.Event.onMaxRetriesExceeded r.id ∈
          (RetryInterceptor.sweepEntry cfg d now r).2 ∧
        RetryInterceptor.Event.rejectCalled r.id e ∈
          (RetryInterceptor.sweepEntry cfg d now r).2) := by
  have hmax1 : cfg.maxRetries ≤ r.retryCount + 1 := Nat.le_trans hmax (Nat.le_succ _)
  cases hd : d r.url r.options with
  | ok resp =>
    cases hok : (resp.ok || !(cfg.retryCondition none (some resp))) with
    | true =>
      have hE := RetryInterceptor.sweepEntry_ok_resolve hdue hd hok
      refine ⟨by rw [hE], ?_, ?_⟩
      · rw [hE]
        simp [RetryInterceptor.attemptEvents]
      · simp only [hd]
        rw [if_pos hok, hE]
        simp
    | false =>
      have hE := RetryInterceptor.sweepEntry_ok_exhaust hdue hd hok hmax1
      refine ⟨by rw [hE], ?_, ?_⟩
      · rw [hE]
        simp [RetryInterceptor.attemptEvents]
      · simp only [hd]
        rw [if_neg (by simp [hok]), hE]
        constructor
        · simp
        · simp [RetryInterceptor.rejectEvents]
  | threw e =>
    have hE := RetryInterceptor.sweepEntry_threw_exhaust hdue hd hmax1
    refine ⟨by rw [hE], ?_, ?_⟩
    · rw [hE]
      simp [RetryInterceptor.attemptEvents]
    · simp only [hd]
      constructor
      · rw [hE]
        simp
      · rw [hE]
        simp [RetryInterceptor.rejectEvents]

/-- Witness for C4's amended claim: ceiling 1, one accumulated attempt, a
successful re-dispatch. -/
theorem RetryInterceptor.lowered_ceiling_next_sweep_settles_witness :
    (RetryInterceptor.sweepEntry RetryInterceptor.cfgMax1 RetryInterceptor.okDispatch 2000
        RetryInterceptor.reqOnce).1 = none ∧
    RetryInterceptor.Event.onRetry RetryInterceptor.reqOnce.id
        (RetryInterceptor.reqOnce.retryCount + 1) ∈
      (RetryInterceptor.sweepEntry RetryInterceptor.cfgMax1 RetryInterceptor.okDispatch 2000
        RetryInterceptor.reqOnce).2 ∧
    RetryInterceptor.Event.resolveCalled RetryInterceptor.reqOnce.id
        { ok := true, status := 200 } ∈
      (RetryInterceptor.sweepEntry RetryInterceptor.cfgMax1 RetryInterceptor.okDispatch 2000
        RetryInterceptor.reqOnce).2 := by
  have h := RetryInterceptor.lowered_ceiling_next_sweep_settles RetryInterceptor.cfgMax1
    RetryInterceptor.okDispatch 2000 RetryInterceptor.reqOnce (by decide) (by decide)
  exact ⟨h.1, h.2.1, h.2.2⟩

namespace RetryInterceptor

/-- An entry a sweep keeps in the registry is either untouched (skipped)
or has its new `retryCount` strictly below the ceiling. -/
theorem sweepEntry_fst_count (cfg : Config) (d : String → Nat → DispatchResult) (now : Int)
    (r r' : PendingRequest) (h : (sweepEntry cfg d now r).1 = some r') :
    r' = r ∨ r'.retryCount < cfg.maxRetries := by
  by_cases hdue : now - r.timestamp < cfg.delayTime
  · rw [sweepEntry_skip hdue] at h
    left
    exact (Option.some.inj h).symm
  · cases hd : d r.url r.options with
    | ok resp =>
      cases hok : (resp.ok || !(cfg.retryCondition none (some resp))) with
      | true =>
        rw [sweepEntry_ok_resolve hdue hd hok] at h
        cases h
      | false =>
        by_cases hmax : cfg.maxRetries ≤ r.retryCount + 1
        · rw [sweepEntry_ok_exhaust hdue hd hok hmax] at h
          cases h
        · rw [sweepEntry_ok_stay hdue hd hok hmax] at h
          right
          rw [← Option.some.inj h]
          simp only [bump]
          omega
    | threw e =>
      by_cases hmax : cfg.maxRetries ≤ r.retryCount + 1
      · rw [sweepEntry_threw_exhaust hdue hd hmax] at h
        cases h
      · cases hr : cfg.retryCondition (some e) none with
        | false =>
          rw [sweepEntry_threw_reject hdue hd hmax hr] at h
          cases h
        | true =>
          rw [sweepEntry_threw_stay hdue hd hmax hr] at h
          right
          rw [← Option.some.inj h]
          simp only [bump]
          omega

/-- Every survivor of a sweep arises from some snapshot entry that
`sweepEntry` kept. -/
theorem retry_mem_fst (cfg : Config) (d : String → Nat → DispatchResult) (now : Int) :
    ∀ (l : List PendingRequest) (r' : PendingRequest),
      r' ∈ (retryPendingRequests cfg d now l).1 →
      ∃ r ∈ l, (sweepEntry cfg d now r).1 = some r' := by
  intro l
  induction l with
  | nil =>
    intro r' h
    simp [retryPendingRequests] at h
  | cons a rest ih =>
    intro r' h
    simp only [retryPendingRequests] at h
    rcases List.mem_append.mp h with h | h
    · rcases Option.eq_none_or_eq_some (sweepEntry cfg d now a).1 with hS | ⟨a', hS⟩
      · rw [hS] at h
        simp at h
      · rw [hS] at h
        have ha : r' = a' := by simpa using h
        exact ⟨a, List.mem_cons_self a rest, by rw [hS, ha]⟩
    · obtain ⟨r, hr, hsome⟩ := ih r' h
      exact ⟨r, List.mem_cons_of_mem a hr, hsome⟩

/-- In every state reachable without configuration updates, a queued
entry's count is zero or strictly below the ceiling. -/
theorem reachableNU_count_inv (s : EngineState) (h : ReachableNU s) :
    ∀ r ∈ s.pending, r.retryCount = 0 ∨ r.retryCount < s.config.maxRetries := by
  induction h with
  | init c =>
    intro r hr
    simp [initState] at hr
  | enqueue s url options now hs ih =>
    intro r hr
    simp only [step, handleFailedRequest] at hr ⊢
    rcases List.mem_append.mp hr with hr | hr
    · exact ih r hr
    · left
      rw [List.mem_singleton.mp hr]
  | sweep s d now hs ih =>
    intro r' hr'
    simp only [step] at hr' ⊢
    obtain ⟨r, hr, hsome⟩ := retry_mem_fst s.config d now s.pending r' hr'
    rcases sweepEntry_fst_count s.config d now r r' hsome with rfl | hlt
    · exact ih r' hr
    · right
      exact hlt
  | clear s hs ih =>
    intro r hr
    simp [step, clearPendingRequests] at hr

end RetryInterceptor

/-- C3 counterexample: after two retryable failures (`retryCount = 2`) and
`updateConfig` lowering `maxRetries` to 1, the reachable state holds a
queued entry whose `retryCount` (2) exceeds the configured `maxRetries`
(1), contradicting "retryCount never exceeds maxRetries while the entry
remains in the registry". -/
theorem RetryInterceptor.retryCount_bound_counterexample :
    RetryInterceptor.stLowerMax.pending.map RetryInterceptor.PendingRequest.retryCount = [2] ∧
    RetryInterceptor.stLowerMax.config.maxRetries = 1 := by
  decide

/-- C3 amended: in every state reachable without `updateConfig`, a queued
entry's `retryCount` never exceeds `maxRetries`, and an entry settled by a
sweep has settlement-time count `retryCount + 1` at most
`max maxRetries 1` (the `max` with 1 is needed because with
`maxRetries = 0` the very first attempt settles with count 1). -/
theorem RetryInterceptor.retryCount_bounded_without_updates
    (s : RetryInterceptor.EngineState) (r : RetryInterceptor.PendingRequest)
    (d : String → Nat → RetryInterceptor.DispatchResult) (now : Int)
    (h : RetryInterceptor.ReachableNU s) (hr : r ∈ s.pending)
    (_hset : (RetryInterceptor.sweepEntry s.config d now r).1 = none) :
    r.retryCount ≤ s.config.maxRetries ∧
    r.retryCount + 1 ≤ max s.config.maxRetries 1 := by
  rcases RetryInterceptor.reachableNU_count_inv s h r hr with h0 | hlt
  · rw [h0]
    exact ⟨Nat.zero_le _, by simp⟩
  · exact ⟨Nat.le_of_lt hlt,
      Nat.le_trans (Nat.succ_le_of_lt hlt) (Nat.le_max_left _ _)⟩

/-- Witness for C3's amended claim: a freshly enqueued entry settled by a
non-retryable thrown error. -/
theorem RetryInterceptor.retryCount_bounded_without_updates_witness :
    RetryInterceptor.req0.retryCount ≤ RetryInterceptor.stEnq.config.maxRetries ∧
    RetryInterceptor.req0.retryCount + 1 ≤ max RetryInterceptor.stEnq.config.maxRetries 1 :=
  RetryInterceptor.retryCount_bounded_without_updates RetryInterceptor.stEnq
    RetryInterceptor.req0 RetryInterceptor.throwPlainError 1000
    (RetryInterceptor.ReachableNU.enqueue (RetryInterceptor.initState {}) "u" 0 0
      (RetryInterceptor.ReachableNU.init {}))
    (by decide) (by decide)

namespace RetryInterceptor

/-- Sweeping one entry under configurations agreeing on all control fields
gives the same surviving entry and the same non-diagnostic events. -/
theorem sweepEntry_sameCore (c c' : Config) (d : String → Nat → DispatchResult)
    (now : Int) (r : PendingRequest) (h : SameCore c c') :
    (sweepEntry c d now r).1 = (sweepEntry c' d now r).1 ∧
    obsEvents (sweepEntry c d now r).2 = obsEvents (sweepEntry c' d now r).2 := by
  obtain ⟨h1, h2, h3, h4⟩ := h
  by_cases hdue : now - r.timestamp < c.delayTime
  · have hdue' : now - r.timestamp < c'.delayTime := h1 ▸ hdue
    rw [sweepEntry_skip hdue, sweepEntry_skip hdue']
    exact ⟨rfl, rfl⟩
  · have hdue' : ¬(now - r.timestamp < c'.delayTime) := h1 ▸ hdue
    cases hd : d r.url r.options with
    | ok resp =>
      cases hok : (resp.ok || !(c.retryCondition none (some resp))) with
      | true =>
        have hok' : (resp.ok || !(c'.retryCondition none (some resp))) = true := h4 ▸ hok
        rw [sweepEntry_ok_resolve hdue hd hok, sweepEntry_ok_resolve hdue' hd hok']
        refine ⟨rfl, ?_⟩
        simp [obsEvents_append, obsEvents_attemptEvents, obsEvents_cons,
          obsEvents_succeededLog, isLogEv]
      | false =>
        have hok' : (resp.ok || !(c'.retryCondition none (some resp))) = false := h4 ▸ hok
        by_cases hmax : c.maxRetries ≤ r.retryCount + 1
        · have hmax' : c'.maxRetries ≤ r.retryCount + 1 := h3 ▸ hmax
          rw [sweepEntry_ok_exhaust hdue hd hok hmax, sweepEntry_ok_exhaust hdue' hd hok' hmax']
          refine ⟨rfl, ?_⟩
          simp [obsEvents_append, obsEvents_attemptEvents, obsEvents_cons,
            obsEvents_exhaustedLog, obsEvents_rejectEvents, isLogEv]
        · have hmax' : ¬(c'.maxRetries ≤ r.retryCount + 1) := h3 ▸ hmax
          rw [sweepEntry_ok_stay hdue hd hok hmax, sweepEntry_ok_stay hdue' hd hok' hmax']
          exact ⟨rfl, by simp [obsEvents_attemptEvents]⟩
    | threw e =>
      by_cases hmax : c.maxRetries ≤ r.retryCount + 1
      · have hmax' : c'.maxRetries ≤ r.retryCount + 1 := h3 ▸ hmax
        rw [sweepEntry_threw_exhaust hdue hd hmax, sweepEntry_threw_exhaust hdue' hd hmax']
        refine ⟨rfl, ?_⟩
        simp [obsEvents_append, obsEvents_attemptEvents, obsEvents_cons,
          obsEvents_exhaustedLog, obsEvents_rejectEvents, isLogEv]
      · have hmax' : ¬(c'.maxRetries ≤ r.retryCount + 1) := h3 ▸ hmax
        cases hr : c.retryCondition (some e) none with
        | false =>
          have hr' : c'.retryCondition (some e) none = false := h4 ▸ hr
          rw [sweepEntry_threw_reject hdue hd hmax hr, sweepEntry_threw_reject hdue' hd hmax' hr']
          refine ⟨rfl, ?_⟩
          simp [obsEvents_append, obsEvents_attemptEvents, obsEvents_nonRetryableLog,
            obsEvents_rejectEvents, isLogEv]
        | true =>
          have hr' : c'.retryCondition (some e) none = true := h4 ▸ hr
          rw [sweepEntry_threw_stay hdue hd hmax hr, sweepEntry_threw_stay hdue' hd hmax' hr']
          exact ⟨rfl, by simp [obsEvents_attemptEvents]⟩

/-- A whole sweep under configurations agreeing on all control fields
gives the same surviving registry and the same non-diagnostic events. -/
theorem retry_sameCore (c c' : Config) (d : String → Nat → DispatchResult) (now : Int)
    (h : SameCore c c') :
    ∀ l : List PendingRequest,
      (retryPendingRequests c d now l).1 = (retryPendingRequests c' d now l).1 ∧
      obsEvents (retryPendingRequests c d now l).2 =
        obsEvents (retryPendingRequests c' d now l).2 := by
  intro l
  induction l with
  | nil => exact ⟨rfl, rfl⟩
  | cons r rest ih =>
    obtain ⟨e1, e2⟩ := sweepEntry_sameCore c c' d now r h
    simp only [retryPendingRequests]
    constructor
    · rw [e1, ih.1]
    · rw [obsEvents_append, obsEvents_append, e2, ih.2]

/-- One operation preserves the relation "identical except possibly the
logging flag", and emits the same non-diagnostic events on both sides. -/
theorem step_sameObs (s s' : EngineState) (op : Op) (h : StateRel s s') :
    StateRel (step s op).1 (step s' op).1 ∧
    obsEvents (step s' op).2 = obsEvents (step s op).2 := by
  obtain ⟨hp, hn, hc⟩ := h
  cases op with
  | enqueue url options now =>
    refine ⟨⟨?_, ?_, ?_⟩, ?_⟩
    · simp [step, handleFailedRequest, hp, hn]
    · simp [step, handleFailedRequest, hn]
    · simpa [step, handleFailedRequest] using hc
    · simp [step, handleFailedRequest, obsEvents_logEvs]
  | sweep d now =>
    obtain ⟨e1, e2⟩ := retry_sameCore s.config s'.config d now hc s.pending
    refine ⟨⟨?_, ?_, ?_⟩, ?_⟩
    · simp only [step, hp]
      exact e1.symm
    · simpa [step] using hn
    · simpa [step] using hc
    · simp only [step, hp]
      exact e2.symm
  | clear =>
    refine ⟨⟨?_, ?_, ?_⟩, ?_⟩
    · simp [step, clearPendingRequests]
    · simpa [step, clearPendingRequests] using hn
    · simpa [step, clearPendingRequests] using hc
    · simp only [step, clearPendingRequests, hp]
      rw [obsEvents_append, obsEvents_append, obsEvents_logEvs, obsEvents_logEvs]
  | update p =>
    obtain ⟨h1, h2, h3, h4⟩ := hc
    refine ⟨⟨?_, ?_, ⟨?_, ?_, ?_, ?_⟩⟩, ?_⟩
    · simpa [step] using hp
    · simpa [step] using hn
    · simp [step, updateConfig, h1]
    · simp [step, updateConfig, h2]
    · simp [step, updateConfig, h3]
    · simp [step, updateConfig, h4]
    · simp [step, obsEvents_logEvs]

/-- A whole run preserves the relation and emits the same non-diagnostic
events on both sides. -/
theorem runOps_sameObs (ops : List Op) :
    ∀ s s' : EngineState, StateRel s s' →
      StateRel (runOps s ops).1 (runOps s' ops).1 ∧
      obsEvents (runOps s' ops).2 = obsEvents (runOps s ops).2 := by
  induction ops with
  | nil =>
    intro s s' h
    exact ⟨h, rfl⟩
  | cons op ops ih =>
    intro s s' h
    obtain ⟨hstep, hobs⟩ := step_sameObs s s' op h
    obtain ⟨hrun, hruno⟩ := ih (step s op).1 (step s' op).1 hstep
    simp only [runOps]
    exact ⟨hrun, by rw [obsEvents_append, obsEvents_append, hobs, hruno]⟩

end RetryInterceptor

/-- C9: two runs of the engine over the same operations, differing only in
the `enableLogging` flag, are observationally identical: same surviving
registry, same freshness counter, same control configuration, the same
non-diagnostic events (enqueues, dispatch attempts, settlements,
callbacks), and the same reported pending count — logging has no
behavioral effect. -/
theorem RetryInterceptor.logging_has_no_behavioral_effect
    (s : RetryInterceptor.EngineState) (b : Bool) (ops : List RetryInterceptor.Op) :
    (RetryInterceptor.runOps (RetryInterceptor.setLogging s b) ops).1.pending =
      (RetryInterceptor.runOps s ops).1.pending ∧
    (RetryInterceptor.runOps (RetryInterceptor.setLogging s b) ops).1.nextId =
      (RetryInterceptor.runOps s ops).1.nextId ∧
    RetryInterceptor.SameCore (RetryInterceptor.runOps s ops).1.config
      (RetryInterceptor.runOps (RetryInterceptor.setLogging s b) ops).1.config ∧
    RetryInterceptor.obsEvents (RetryInterceptor.runOps (RetryInterceptor.setLogging s b) ops).2 =
      RetryInterceptor.obsEvents (RetryInterceptor.runOps s ops).2 ∧
    RetryInterceptor.getPendingRequestsCount
        (RetryInterceptor.runOps (RetryInterceptor.setLogging s b) ops).1 =
      RetryInterceptor.getPendingRequestsCount (RetryInterceptor.runOps s ops).1 := by
  have hrel : RetryInterceptor.StateRel s (RetryInterceptor.setLogging s b) :=
    ⟨rfl, rfl, rfl, rfl, rfl, rfl⟩
  obtain ⟨⟨hp, hn, hc⟩, hobs⟩ := RetryInterceptor.runOps_sameObs ops s
    (RetryInterceptor.setLogging s b) hrel
  exact ⟨hp, hn, hc, hobs,
    by simp [RetryInterceptor.getPendingRequestsCount, hp]⟩
